import Mathlib

/-!
# koreader-sync: a shallow embedding of `koreader-sync.go`

The development follows the source file top to bottom:

* Go strings are byte sequences (`GoString`), Go `int`/`int64` values are `Int`;
* the standard-library pieces the program calls (`encoding/base64`, `crypto/sha256`,
  `crypto/hmac`, the struct decoder and encoder of `encoding/json`) are written out as
  executable functions;
* the SQLite file is a value of type `Database` holding the rows of the two tables, and every
  method of `*Database` is a function on that value;
* the server clock (`time.Now().Unix()`) and the random salt (`RandStringRunes(8)`) are
  arguments of the functions that read them;
* an HTTP handler maps the store and a `Request` to the new store and the `Response` written.

Storage failures of the driver other than the ones SQLite itself reports for the statements of
the program (a rejected statement, a violated primary key) are not part of the model.
-/

set_option linter.dupNamespace false

namespace KoreaderSync

/-! ## Bytes and strings -/

/-- One byte. -/
abbrev Byte := Fin 256

/-- A Go `string` (and a `[]byte`): a finite sequence of bytes. -/
abbrev GoString := List Byte

/-- The low eight bits of a number, as a byte. -/
def byteOfNat (n : Nat) : Byte := ⟨n % 256, Nat.mod_lt n (by decide)⟩

/-- The bytes of a string literal of the source (all of them are ASCII). -/
def str (s : String) : GoString := s.toList.map (fun c => byteOfNat c.toNat)

/-! ## `encoding/base64`, `StdEncoding` -/

/-- The alphabet of `base64.StdEncoding`. -/
def encodeStd : GoString :=
  str "ABCDEFGHIJKLMNOPQRSTUVWXYZabcdefghijklmnopqrstuvwxyz0123456789+/"

/-- The padding character `=` of `base64.StdEncoding`. -/
def stdPadding : Byte := 61

/-- The character that encodes a six-bit value. -/
def encodeSextet (n : Nat) : Byte := encodeStd.getD n stdPadding

/-- The call `base64.StdEncoding.EncodeToString`: three bytes become four characters, and a final
group of one or two bytes is padded with `=`. -/
def base64Encode : List Byte → GoString
  | [] => []
  | [a] => [encodeSextet (a.val / 4), encodeSextet (a.val % 4 * 16), stdPadding, stdPadding]
  | [a, b] =>
    [encodeSextet (a.val / 4), encodeSextet (a.val % 4 * 16 + b.val / 16),
     encodeSextet (b.val % 16 * 4), stdPadding]
  | a :: b :: c :: rest =>
    encodeSextet (a.val / 4) :: encodeSextet (a.val % 4 * 16 + b.val / 16) ::
      encodeSextet (b.val % 16 * 4 + c.val / 64) :: encodeSextet (c.val % 64) ::
      base64Encode rest

/-- The six-bit value a character of the alphabet stands for. -/
def decodeSextet (c : Byte) : Option Nat :=
  if c ∈ encodeStd then some (encodeStd.indexOf c) else none

/-- Standard base64 decoding (padded, canonical input), the inverse of `base64Encode`. -/
def base64Decode : GoString → Option (List Byte)
  | [] => some []
  | [_] => none
  | [_, _] => none
  | [_, _, _] => none
  | w :: x :: y :: z :: rest =>
    if rest = [] ∧ z = stdPadding then
      if y = stdPadding then
        match decodeSextet w, decodeSextet x with
        | some s0, some s1 => some [byteOfNat (s0 * 4 + s1 / 16)]
        | _, _ => none
      else
        match decodeSextet w, decodeSextet x, decodeSextet y with
        | some s0, some s1, some s2 =>
          some [byteOfNat (s0 * 4 + s1 / 16), byteOfNat (s1 % 16 * 16 + s2 / 4)]
        | _, _, _ => none
    else
      match decodeSextet w, decodeSextet x, decodeSextet y, decodeSextet z,
        base64Decode rest with
      | some s0, some s1, some s2, some s3, some tail =>
        some (byteOfNat (s0 * 4 + s1 / 16) :: byteOfNat (s1 % 16 * 16 + s2 / 4) ::
          byteOfNat (s2 % 4 * 64 + s3) :: tail)
      | _, _, _, _, _ => none

/-! ## `crypto/sha256` -/

/-- Addition of 32-bit words. -/
def add32 (a b : Nat) : Nat := (a + b) % 2 ^ 32

/-- Rotation of a 32-bit word to the right. -/
def rotr (x n : Nat) : Nat := ((x >>> n) ||| (x <<< (32 - n))) % 2 ^ 32

/-- The round constants of SHA-256. -/
def sha256K : List Nat :=
  [0x428a2f98, 0x71374491, 0xb5c0fbcf, 0xe9b5dba5, 0x3956c25b, 0x59f111f1, 0x923f82a4, 0xab1c5ed5,
   0xd807aa98, 0x12835b01, 0x243185be, 0x550c7dc3, 0x72be5d74, 0x80deb1fe, 0x9bdc06a7, 0xc19bf174,
   0xe49b69c1, 0xefbe4786, 0x0fc19dc6, 0x240ca1cc, 0x2de92c6f, 0x4a7484aa, 0x5cb0a9dc, 0x76f988da,
   0x983e5152, 0xa831c66d, 0xb00327c8, 0xbf597fc7, 0xc6e00bf3, 0xd5a79147, 0x06ca6351, 0x14292967,
   0x27b70a85, 0x2e1b2138, 0x4d2c6dfc, 0x53380d13, 0x650a7354, 0x766a0abb, 0x81c2c92e, 0x92722c85,
   0xa2bfe8a1, 0xa81a664b, 0xc24b8b70, 0xc76c51a3, 0xd192e819, 0xd6990624, 0xf40e3585, 0x106aa070,
   0x19a4c116, 0x1e376c08, 0x2748774c, 0x34b0bcb5, 0x391c0cb3, 0x4ed8aa4a, 0x5b9cca4f, 0x682e6ff3,
   0x748f82ee, 0x78a5636f, 0x84c87814, 0x8cc70208, 0x90befffa, 0xa4506ceb, 0xbef9a3f7, 0xc67178f2]

/-- The eight chaining words of SHA-256. -/
structure Sha256State where
  h0 : Nat
  h1 : Nat
  h2 : Nat
  h3 : Nat
  h4 : Nat
  h5 : Nat
  h6 : Nat
  h7 : Nat
  deriving DecidableEq, Repr

/-- The initial chaining value of SHA-256. -/
def sha256Init : Sha256State :=
  ⟨0x6a09e667, 0xbb67ae85, 0x3c6ef372, 0xa54ff53a, 0x510e527f, 0x9b05688c, 0x1f83d9ab, 0x5be0cd19⟩

/-- The four bytes of a 32-bit word, most significant first. -/
def be32 (w : Nat) : List Byte :=
  [byteOfNat (w / 2 ^ 24), byteOfNat (w / 2 ^ 16), byteOfNat (w / 2 ^ 8), byteOfNat w]

/-- The big-endian words of a block of bytes (four bytes a word). -/
def wordsOfBytes : List Byte → List Nat
  | a :: b :: c :: d :: rest =>
    (a.val * 2 ^ 24 + b.val * 2 ^ 16 + c.val * 2 ^ 8 + d.val) :: wordsOfBytes rest
  | _ => []

/-- The message schedule: the sixteen words of the block extended to sixty-four. -/
def sha256Schedule (block : List Nat) : List Nat :=
  (List.range 48).foldl
    (fun w _ =>
      let t := w.length
      let w2 := w.getD (t - 2) 0
      let w15 := w.getD (t - 15) 0
      let s0 := rotr w15 7 ^^^ rotr w15 18 ^^^ (w15 >>> 3)
      let s1 := rotr w2 17 ^^^ rotr w2 19 ^^^ (w2 >>> 10)
      w ++ [add32 (add32 (add32 s1 (w.getD (t - 7) 0)) s0) (w.getD (t - 16) 0)])
    block

/-- One round of the compression function, on the round constant and the schedule word. -/
def sha256Round (s : Sha256State) (kw : Nat × Nat) : Sha256State :=
  let S1 := rotr s.h4 6 ^^^ rotr s.h4 11 ^^^ rotr s.h4 25
  let ch := (s.h4 &&& s.h5) ^^^ ((s.h4 ^^^ (2 ^ 32 - 1)) &&& s.h6)
  let t1 := add32 (add32 (add32 (add32 s.h7 S1) ch) kw.1) kw.2
  let S0 := rotr s.h0 2 ^^^ rotr s.h0 13 ^^^ rotr s.h0 22
  let maj := (s.h0 &&& s.h1) ^^^ (s.h0 &&& s.h2) ^^^ (s.h1 &&& s.h2)
  let t2 := add32 S0 maj
  ⟨add32 t1 t2, s.h0, s.h1, s.h2, add32 s.h3 t1, s.h4, s.h5, s.h6⟩

/-- The compression of one 64-byte block into the chaining value. -/
def sha256Block (s : Sha256State) (block : List Byte) : Sha256State :=
  let r := (sha256K.zip (sha256Schedule (wordsOfBytes block))).foldl sha256Round s
  ⟨add32 s.h0 r.h0, add32 s.h1 r.h1, add32 s.h2 r.h2, add32 s.h3 r.h3,
   add32 s.h4 r.h4, add32 s.h5 r.h5, add32 s.h6 r.h6, add32 s.h7 r.h7⟩

/-- The eight bytes of a 64-bit length, most significant first. -/
def be64 (n : Nat) : List Byte := be32 (n / 2 ^ 32 % 2 ^ 32) ++ be32 (n % 2 ^ 32)

/-- The padded message: a `0x80` byte, zero bytes up to 56 modulo 64, and the bit length. -/
def sha256Pad (msg : List Byte) : List Byte :=
  msg ++ [byteOfNat 0x80] ++ List.replicate ((119 - msg.length % 64) % 64) (byteOfNat 0) ++
    be64 (8 * msg.length)

/-- The function `sha256.Sum256`: the padded message is cut into 64-byte blocks, each block is
compressed into the chaining value, and the digest is the 32 bytes of the final value. -/
def sha256 (msg : List Byte) : List Byte :=
  let padded := sha256Pad msg
  let s := (List.range (padded.length / 64)).foldl
    (fun s i => sha256Block s ((padded.drop (64 * i)).take 64)) sha256Init
  be32 s.h0 ++ be32 s.h1 ++ be32 s.h2 ++ be32 s.h3 ++
    be32 s.h4 ++ be32 s.h5 ++ be32 s.h6 ++ be32 s.h7

/-! ## `crypto/hmac` -/

/-- The key of an HMAC brought to the block size of 64 bytes: hashed when longer, then filled
with zero bytes. -/
def hmacBlockKey (key : List Byte) : List Byte :=
  let k := if 64 < key.length then sha256 key else key
  k ++ List.replicate (64 - k.length) (byteOfNat 0)

/-- The function HMAC-SHA256 of a key and a message. -/
def hmacSHA256 (key msg : List Byte) : List Byte :=
  sha256 ((hmacBlockKey key).map (fun b => byteOfNat (b.val ^^^ 0x5c)) ++
    sha256 ((hmacBlockKey key).map (fun b => byteOfNat (b.val ^^^ 0x36)) ++ msg))

/-- A `hash.Hash` made by `hmac.New(sha256.New, key)`: the key and the bytes written so far. -/
structure HMAC where
  key : List Byte
  written : List Byte
  deriving DecidableEq, Repr

/-- The call `hmac.New(sha256.New, key)`: nothing is written yet. -/
def hmacNew (key : List Byte) : HMAC := ⟨key, []⟩

/-- The method `Write` of a `hash.Hash`: the bytes are added to the message. -/
def HMAC.Write (h : HMAC) (p : List Byte) : HMAC := ⟨h.key, h.written ++ p⟩

/-- The method `Sum` of a `hash.Hash`: it appends the hash of the bytes written so far to `b` and
returns the resulting slice; `b` is not part of the hashed message. -/
def HMAC.Sum (h : HMAC) (b : List Byte) : List Byte := b ++ hmacSHA256 h.key h.written

/-! ## The data model of the program -/

/-- The struct `User`: a row of the table `users` together with its `rowid`. -/
structure User where
  ID : Int
  Name : GoString
  Password : GoString
  Salt : GoString
  deriving DecidableEq, Repr

/-- The struct `Progress`: a row of the table `progress`, and the body of a push. -/
structure Progress where
  User : Int
  Document : GoString
  Percentage : Int
  Progress : GoString
  Device : GoString
  DeviceID : GoString
  Timestamp : Int
  deriving DecidableEq, Repr

/-- The zero value `Progress{}`. -/
def zeroProgress : Progress := ⟨0, [], 0, [], [], [], 0⟩

/-- The struct `Error`. -/
structure Error where
  HTTPCode : Int
  Code : Int
  Message : GoString
  deriving DecidableEq, Repr

/-- A non-nil value of the interface `error`: one of the `*Error` values of the program, or an
error of the database driver. The program compares `*Error` values by pointer; the only ones its
store methods return are the three package variables, which differ in their fields, so that
comparison is equality of `GoError`. -/
inductive GoError
  | app (e : Error)
  | driver (msg : GoString)
  deriving DecidableEq, Repr

/-- The constant `http.StatusOK`. -/
def StatusOK : Int := 200
/-- The constant `http.StatusCreated`. -/
def StatusCreated : Int := 201
/-- The constant `http.StatusBadRequest`. -/
def StatusBadRequest : Int := 400
/-- The constant `http.StatusUnauthorized`. -/
def StatusUnauthorized : Int := 401
/-- The constant `http.StatusPaymentRequired`. -/
def StatusPaymentRequired : Int := 402
/-- The constant `http.StatusInternalServerError`. -/
def StatusInternalServerError : Int := 500

/-- The variable `ErrNoUser`. -/
def ErrNoUser : Error := ⟨StatusUnauthorized, StatusUnauthorized, str "No User"⟩
/-- The variable `ErrIncorrectPassword`. -/
def ErrIncorrectPassword : Error := ⟨StatusUnauthorized, StatusUnauthorized, str "Unauthorized"⟩
/-- The variable `ErrUserExists`. -/
def ErrUserExists : Error := ⟨StatusPaymentRequired, 2002, str "User Exists"⟩

/-! ## The store -/

/-- A row of the table `users (name text, password text, salt text, primary key (name))`, with
the `rowid` SQLite gives it. -/
structure UserRow where
  rowid : Int
  name : GoString
  password : GoString
  salt : GoString
  deriving DecidableEq, Repr

/-- The content of the SQLite file: the rows of `users` and of `progress`. -/
structure Database where
  users : List UserRow
  progress : List Progress
  deriving DecidableEq, Repr

/-- The store right after `initTable` on a new file. -/
def Database.empty : Database := ⟨[], []⟩

/-- The `rowid` SQLite assigns to a row inserted without one: one more than the largest `rowid`
of the table, and 1 for an empty table. -/
def nextRowid (rows : List UserRow) : Int := rows.foldl (fun m r => max m r.rowid) 0 + 1

/-- The method `GetUser`: `SELECT rowid, name, password, salt FROM users WHERE name = ?`, and
`ErrNoUser` when there is no row. -/
def GetUser (d : Database) (name : GoString) : Except GoError User :=
  match d.users.find? (fun r => r.name = name) with
  | none => .error (.app ErrNoUser)
  | some r => .ok ⟨r.rowid, r.name, r.password, r.salt⟩

/-- The method `Auth`. -/
def Auth (d : Database) (name password : GoString) : Except GoError Int :=
  match GetUser d name with
  | .error err => .error err
  | .ok u =>
    let h := hmacNew u.Salt
    let b := h.Sum password
    let p := base64Encode b
    if p ≠ u.Password then .error (.app ErrNoUser)
    else if u.Password ≠ password then .error (.app ErrIncorrectPassword)
    else .ok u.ID

/-- The variable `letterRunes`. -/
def letterRunes : GoString := str "abcdefghijklmnopqrstuvwxyz0123456789"

/-- The function `RandStringRunes`; `rnd i` is the value the `i`-th call of
`rand.Intn(len(letterRunes))` returns, taken below `len(letterRunes)`. -/
def RandStringRunes (n : Nat) (rnd : Nat → Nat) : GoString :=
  (List.range n).map (fun i => letterRunes.getD (rnd i % letterRunes.length) (byteOfNat 0))

/-- The statement `INSERT INTO users (name, password, salt) VALUES (?, ?, ?)`: refused when the
primary key `name` is taken, else the row is added under a new `rowid`. -/
def insertUser (d : Database) (name password salt : GoString) : Database × Option GoError :=
  if d.users.any (fun r => r.name = name) then
    (d, some (.driver (str "constraint failed: UNIQUE constraint failed: users.name")))
  else
    ({ d with users := d.users ++ [⟨nextRowid d.users, name, password, salt⟩] }, none)

/-- The method `CreateUser`: the store afterwards and the error returned (`none` for `nil`). -/
def CreateUser (d : Database) (rnd : Nat → Nat) (name password : GoString) :
    Database × Option GoError :=
  match GetUser d name with
  | .error err =>
    if err ≠ .app ErrNoUser then (d, some err)
    else
      let salt := RandStringRunes 8 rnd
      let h := hmacNew salt
      let b := h.Sum password
      let p := base64Encode b
      insertUser d name p salt
  | .ok _ => (d, some (.app ErrUserExists))

/-- The method `GetProgress`: the row of `progress` under `(user, document)`, and `&Progress{}`
when there is none. -/
def GetProgress (d : Database) (user : Int) (document : GoString) : Except GoError Progress :=
  match d.progress.find? (fun p => p.User = user ∧ p.Document = document) with
  | none => .ok zeroProgress
  | some p => .ok p

/-- A statement `REPLACE INTO progress (user, document, percentage, progress, device, device_id,
timestamp) VALUES (?, ?, ?, ?, ?, ?, ?)` with its bound values, followed or not by a clause
`WHERE user = ? AND document = ?` with its two bound values. -/
structure ReplaceProgress where
  values : Progress
  whereClause : Option (Int × GoString)
  deriving DecidableEq, Repr

/-- What SQLite does with a `ReplaceProgress` statement. Its grammar for `INSERT` and `REPLACE`
allows nothing but an upsert or a `RETURNING` clause after `VALUES (...)`, so a statement with a
`WHERE` clause is refused when it is prepared (`near "WHERE": syntax error`) and no row is
touched. Without that clause the row under the primary key `(user, document)` is replaced. -/
def execReplaceProgress (d : Database) (s : ReplaceProgress) : Database × Option GoError :=
  match s.whereClause with
  | some _ => (d, some (.driver (str "SQL logic error: near \"WHERE\": syntax error (1)")))
  | none =>
    ({ d with
        progress :=
          d.progress.filter
              (fun q => ¬ (q.User = s.values.User ∧ q.Document = s.values.Document)) ++
            [s.values] },
      none)

/-- The method `UpdateProgress`: its statement is `REPLACE INTO progress (...) VALUES (...)
WHERE user = ? AND document = ?`, bound to the seven fields of `p` and to `p.User`,
`p.Document`. -/
def UpdateProgress (d : Database) (p : Progress) : Database × Option GoError :=
  execReplaceProgress d ⟨p, some (p.User, p.Document)⟩

/-! ## `encoding/json` -/

/-- A JSON number as it is written: sign, integer digits, fraction digits (empty when the
literal has no fraction part) and exponent. -/
structure NumLit where
  neg : Bool
  int : Nat
  frac : List Nat
  exp : Option Int
  deriving DecidableEq, Repr

/-- The literal the encoder writes for a Go integer. -/
def NumLit.ofInt (v : Int) : NumLit := ⟨decide (v < 0), v.natAbs, [], none⟩

/-- The value `strconv.ParseInt(literal, 10, 64)` yields for a JSON number: the decoder of an
`int` or `int64` field accepts the literal only when it has neither fraction nor exponent and
fits 64 bits. -/
def NumLit.parseInt (n : NumLit) : Option Int :=
  if n.frac = [] ∧ n.exp = none then
    let v : Int := if n.neg then -(n.int : Int) else (n.int : Int)
    if -(2 : Int) ^ 63 ≤ v ∧ v < (2 : Int) ^ 63 then some v else none
  else none

/-- A JSON value that is a member of an object or stands alone: `composite` is an array or an
object, whose content the struct decoder never looks at (it is a type error for a scalar field
and skipped under an unknown key). -/
inductive JValue
  | null
  | bool (b : Bool)
  | num (n : NumLit)
  | str (s : GoString)
  | composite
  deriving DecidableEq, Repr

/-- A JSON text: an object with its members in order, or another value. -/
inductive JSON
  | value (v : JValue)
  | obj (members : List (GoString × JValue))
  deriving DecidableEq, Repr

/-- The function `foldName` of the decoder, by which the key of a member is matched with the
name of a field whatever the case of its letters. An ASCII letter is brought to upper case; the
runes U+017F and U+212A fold to `S` and `K`; every other rune outside ASCII folds to a rune
outside ASCII and is kept as written, which does not change whether the folded key equals the
folded (ASCII) name of a field. The first argument counts the remaining bytes of a rune already
folded, which are passed over. -/
def foldNameFrom : Nat → GoString → GoString
  | _, [] => []
  | skip + 1, _ :: rest => foldNameFrom skip rest
  | 0, c :: rest =>
    if c.val = 0xC5 ∧ rest.head? = some (byteOfNat 0xBF) then
      byteOfNat 83 :: foldNameFrom 1 rest
    else if c.val = 0xE2 ∧ rest.take 2 = [byteOfNat 0x84, byteOfNat 0xAA] then
      byteOfNat 75 :: foldNameFrom 2 rest
    else if 97 ≤ c.val ∧ c.val ≤ 122 then byteOfNat (c.val - 32) :: foldNameFrom 0 rest
    else c :: foldNameFrom 0 rest

/-- The folded form of a key or of a field name. -/
def foldName (key : GoString) : GoString := foldNameFrom 0 key

/-- The decoding of a value into a field of type `int` or `int64`: `null` leaves the field as it
is, a number must parse as an integer, anything else is a type error. -/
def decodeInt (v : JValue) (old : Int) : Option Int :=
  match v with
  | .null => some old
  | .num n => n.parseInt
  | _ => none

/-- The decoding of a value into a field of type `string`: `null` leaves the field as it is,
anything but a string is a type error. -/
def decodeString (v : JValue) (old : GoString) : Option GoString :=
  match v with
  | .null => some old
  | .str s => some s
  | _ => none

/-- The decoding of one member into the field of `Progress` its key names (the names are the
`json` tags of the struct); a member under another key is skipped. -/
def setProgressField (p : Progress) (key : GoString) (v : JValue) : Option Progress :=
  let k := foldName key
  if k = foldName (str "user") then
    (decodeInt v p.User).map (fun x => { p with User := x })
  else if k = foldName (str "document") then
    (decodeString v p.Document).map (fun x => { p with Document := x })
  else if k = foldName (str "percentage") then
    (decodeInt v p.Percentage).map (fun x => { p with Percentage := x })
  else if k = foldName (str "progress") then
    (decodeString v p.Progress).map (fun x => { p with Progress := x })
  else if k = foldName (str "device") then
    (decodeString v p.Device).map (fun x => { p with Device := x })
  else if k = foldName (str "device_id") then
    (decodeString v p.DeviceID).map (fun x => { p with DeviceID := x })
  else if k = foldName (str "timestamp") then
    (decodeInt v p.Timestamp).map (fun x => { p with Timestamp := x })
  else some p

/-- The call `Decode(&p)` on a `Progress` that holds the zero value: `none` when the decoder
returns an error. The members are decoded in order, a later one overwriting an earlier one; a
type error in any member makes the call return an error; `null` decodes to the zero value and
any other text that is not an object is a type error. -/
def decodeProgress : JSON → Option Progress
  | .value .null => some zeroProgress
  | .value _ => none
  | .obj members =>
    members.foldl (fun acc kv => acc.bind (fun p => setProgressField p kv.1 kv.2))
      (some zeroProgress)

/-- The struct `UserForm`. -/
structure UserForm where
  Username : GoString
  Password : GoString
  deriving DecidableEq, Repr

/-- The decoding of one member into the field of `UserForm` its key names. -/
def setUserFormField (u : UserForm) (key : GoString) (v : JValue) : Option UserForm :=
  let k := foldName key
  if k = foldName (str "username") then
    (decodeString v u.Username).map (fun x => { u with Username := x })
  else if k = foldName (str "password") then
    (decodeString v u.Password).map (fun x => { u with Password := x })
  else some u

/-- The call `Decode(&u)` on a zero `UserForm`. -/
def decodeUserForm : JSON → Option UserForm
  | .value .null => some ⟨[], []⟩
  | .value _ => none
  | .obj members =>
    members.foldl (fun acc kv => acc.bind (fun u => setUserFormField u kv.1 kv.2))
      (some ⟨[], []⟩)

/-- The JSON text `Encode` writes for an `*Error`: `HTTPCode` has the tag `json:"-"`. -/
def encodeError (e : Error) : JSON :=
  .obj [(str "code", .num (NumLit.ofInt e.Code)), (str "message", .str e.Message)]

/-- The members `Encode` writes for an integer field tagged `omitempty`. -/
def omitemptyInt (key : GoString) (v : Int) : List (GoString × JValue) :=
  if v = 0 then [] else [(key, .num (NumLit.ofInt v))]

/-- The members `Encode` writes for a string field tagged `omitempty`. -/
def omitemptyString (key : GoString) (v : GoString) : List (GoString × JValue) :=
  if v = [] then [] else [(key, .str v)]

/-- The JSON text `Encode` writes for a `*Progress`: the fields in the order of the struct, each
under its `json` tag and left out when it holds its zero value. -/
def encodeProgress (p : Progress) : JSON :=
  .obj (omitemptyInt (str "user") p.User ++ omitemptyString (str "document") p.Document ++
    omitemptyInt (str "percentage") p.Percentage ++ omitemptyString (str "progress") p.Progress ++
    omitemptyString (str "device") p.Device ++ omitemptyString (str "device_id") p.DeviceID ++
    omitemptyInt (str "timestamp") p.Timestamp)

/-! ## The HTTP handlers -/

/-- What a handler reads of a request: the headers `X-Auth-User` and `X-Auth-Key` (empty when
absent), the first JSON text of the body (`none` when the body does not start with a well-formed
one) and the path value `document`. -/
structure Request where
  authUser : GoString
  authKey : GoString
  body : Option JSON
  document : GoString
  deriving DecidableEq, Repr

/-- What a handler writes: the status and the JSON text of the body (`none` when no byte is
written). The header `Content-Type` is `application/json` on every path and is left out. -/
structure Response where
  status : Int
  body : Option JSON
  deriving DecidableEq, Repr

/-- The response of a handler that returns without writing: the server sends status 200 and an
empty body. -/
def unwritten : Response := ⟨StatusOK, none⟩

/-- The function `writeJSONError`: an error that is not an `*Error` is replaced by the generic
500 error, then the status is `HTTPCode` and the body the encoded error. -/
def writeJSONError (err : GoError) : Response :=
  let e : Error :=
    match err with
    | .app e => e
    | .driver _ =>
      ⟨StatusInternalServerError, StatusInternalServerError, str "Internal Server Error"⟩
  ⟨e.HTTPCode, some (encodeError e)⟩

/-- The function `auth`: what it wrote to the response (`none` for nothing) and the id it
returns, which is 0 when `Auth` fails. -/
def auth (d : Database) (r : Request) : Option Response × Int :=
  let user := r.authUser
  let key := r.authKey
  match Auth d user key with
  | .error err => (some (writeJSONError err), 0)
  | .ok id => (none, id)

/-- The function `decodeBody`, for the decoder of the type of `v`: the decoded value when it
returns true, the response it wrote when it returns false. -/
def decodeBody {α : Type} (decode : JSON → Option α) (r : Request) : Except Response α :=
  match r.body.bind decode with
  | none => .error (writeJSONError (.app ⟨StatusBadRequest, 2003, str "Bad request"⟩))
  | some v => .ok v

/-- The handler `routeUsersCreate` of `POST /users/create`. -/
def routeUsersCreate (d : Database) (rnd : Nat → Nat) (r : Request) : Database × Response :=
  match decodeBody decodeUserForm r with
  | .error w => (d, w)
  | .ok u =>
    match CreateUser d rnd u.Username u.Password with
    | (d1, some err) => (d1, writeJSONError err)
    | (d1, none) =>
      (d1, ⟨StatusCreated, some (.obj [(str "username", .str u.Username)])⟩)

/-- The handler `routeUsersAuth` of `GET /users/auth`. -/
def routeUsersAuth (d : Database) (r : Request) : Response :=
  let a := auth d r
  if a.2 = 0 then a.1.getD unwritten
  else ⟨StatusOK, some (.obj [(str "authorized", .str (str "OK"))])⟩

/-- The lines of `routeSyncProgress` between the return of `auth` and the call of
`UpdateProgress`, `uid` being the id `auth` returned and `now` the value of `time.Now().Unix()`:
the body is decoded into a zero `Progress`, then `p.User = uid` and `p.Timestamp = now`. The
result is the record handed to `UpdateProgress`, or the response `decodeBody` wrote. -/
def syncProgressRecord (now uid : Int) (r : Request) : Except Response Progress :=
  match decodeBody decodeProgress r with
  | .error w => .error w
  | .ok p0 =>
    let p1 : Progress := { p0 with User := uid }
    .ok { p1 with Timestamp := now }

/-- The lines of `routeSyncProgress` after the call of `UpdateProgress`, `err` being what the call
returned for the record `p`: the error envelope, or status 201 with the map of the document and
the timestamp of `p` (a map is encoded with its keys in sorted order). -/
def syncProgressResponse (p : Progress) (err : Option GoError) : Response :=
  match err with
  | some e => writeJSONError e
  | none =>
    ⟨StatusCreated,
      some (.obj [(str "document", .str p.Document),
        (str "timestamp", .num (NumLit.ofInt p.Timestamp))])⟩

/-- The handler `routeSyncProgress` of `PUT /syncs/progress`; `now` is `time.Now().Unix()`. -/
def routeSyncProgress (d : Database) (now : Int) (r : Request) : Database × Response :=
  let a := auth d r
  let uid := a.2
  if uid = 0 then (d, a.1.getD unwritten)
  else
    match syncProgressRecord now uid r with
    | .error w => (d, w)
    | .ok p =>
      let u := UpdateProgress d p
      (u.1, syncProgressResponse p u.2)

/-- The handler `routeGetProgress` of `GET /syncs/progress/{document}`. -/
def routeGetProgress (d : Database) (r : Request) : Response :=
  let a := auth d r
  let uid := a.2
  if uid = 0 then a.1.getD unwritten
  else
    match GetProgress d uid r.document with
    | .error err => writeJSONError err
    | .ok p => ⟨StatusOK, some (encodeProgress p)⟩

/-! ## The inputs of the tests -/

/-- The value `testNow.Unix()` of the tests: 2021-01-01 00:00:00 UTC. -/
def testNow : Int := 1609459200

/-- The body `testProgress` pushes:
`{"document":"test","percentage":0.1,"progress":"test","device":"123","device_id":"123",
"timestamp":111}`. -/
def testProgressBody : JSON :=
  .obj [(str "document", .str (str "test")), (str "percentage", .num ⟨false, 0, [1], none⟩),
    (str "progress", .str (str "test")), (str "device", .str (str "123")),
    (str "device_id", .str (str "123")), (str "timestamp", .num ⟨false, 111, [], none⟩)]

/-- The store of the tests when `testProgress` starts: `testHTTPUser` has created the user
`test` with the password `test`; the salt drawn is `abcdefgh`. -/
def testStore : Database := (CreateUser Database.empty id (str "test") (str "test")).1

/-- A record as a push of `testProgress` would hand it to `UpdateProgress` (with a percentage
the struct can hold): user 1, document `test`, stamped with `testNow`. -/
def testRecord : Progress := ⟨1, str "test", 1, str "test", str "123", str "123", testNow⟩

/-- A body like the one of `testProgress` with a percentage the struct can hold, which also
carries a user and a timestamp of the client:
`{"user":999,"document":"test","percentage":1,"progress":"test","device":"123",
"device_id":"123","timestamp":111}`. -/
def testIntegerBody : JSON :=
  .obj [(str "user", .num ⟨false, 999, [], none⟩), (str "document", .str (str "test")),
    (str "percentage", .num ⟨false, 1, [], none⟩), (str "progress", .str (str "test")),
    (str "device", .str (str "123")), (str "device_id", .str (str "123")),
    (str "timestamp", .num ⟨false, 111, [], none⟩)]

/-- A body with a field of the wrong type: `{"document":"test","percentage":"high"}`. -/
def testWrongTypeBody : JSON :=
  .obj [(str "document", .str (str "test")), (str "percentage", .str (str "high"))]

/-! ## Malformed bodies and sequences of writes, as the claims word them -/

/-- The `json` names of the fields of `Progress` that hold an integer. -/
def intFieldNames : List GoString := [str "user", str "percentage", str "timestamp"]

/-- The `json` names of the fields of `Progress` that hold a string. -/
def stringFieldNames : List GoString :=
  [str "document", str "progress", str "device", str "device_id"]

/-- A member whose value has the wrong type for the field its key names: something other than
`null` and a number without fraction and exponent for an integer field, something other than
`null` and a string for a string field. -/
def WrongType (key : GoString) (v : JValue) : Prop :=
  (foldName key ∈ intFieldNames.map foldName ∧
      ¬ (v = .null ∨ ∃ n, v = .num n ∧ n.frac = [] ∧ n.exp = none)) ∨
    (foldName key ∈ stringFieldNames.map foldName ∧ ¬ (v = .null ∨ ∃ s, v = .str s))

/-- A malformed push body: one that is not well-formed JSON, a JSON text that is neither an
object nor `null`, or an object with a member of the wrong type. -/
inductive Malformed : Option JSON → Prop
  | notJSON : Malformed none
  | notObject (v : JValue) : v ≠ .null → Malformed (some (.value v))
  | wrongField (members : List (GoString × JValue)) (key : GoString) (v : JValue) :
      (key, v) ∈ members → WrongType key v → Malformed (some (.obj members))

/-- A sequence of `UpdateProgress` calls, oldest first: the store after the last call, and the
records of the calls that returned `nil`, oldest first. -/
def updateAll (d : Database) : List Progress → Database × List Progress
  | [] => (d, [])
  | p :: ps =>
    let u := UpdateProgress d p
    let rest := updateAll u.1 ps
    (rest.1, if u.2 = none then p :: rest.2 else rest.2)

/-- The record of the most recent write under the key `(user, document)` among the records
written, oldest first. -/
def lastWritten (written : List Progress) (user : Int) (document : GoString) : Option Progress :=
  written.reverse.find? (fun p => p.User = user ∧ p.Document = document)

/-! ## Base64 and the hashes -/

theorem encodeStd_length : encodeStd.length = 64 := by decide

theorem sextet_roundtrip : ∀ n : Fin 64,
    encodeSextet n.val ∈ encodeStd ∧ encodeStd.indexOf (encodeSextet n.val) = n.val ∧
      encodeSextet n.val ≠ stdPadding := by decide

theorem decodeSextet_encodeSextet (n : Nat) (h : n < 64) :
    decodeSextet (encodeSextet n) = some n := by
  have := sextet_roundtrip ⟨n, h⟩
  simp only [decodeSextet, this.1, this.2.1, if_true]

theorem encodeSextet_ne_padding (n : Nat) (h : n < 64) : encodeSextet n ≠ stdPadding :=
  (sextet_roundtrip ⟨n, h⟩).2.2

theorem byteOfNat_val (a : Byte) : byteOfNat a.val = a := by
  apply Fin.ext
  simp [byteOfNat, Nat.mod_eq_of_lt a.isLt]

theorem base64Decode_encode (bs : List Byte) : base64Decode (base64Encode bs) = some bs := by
  induction bs using base64Encode.induct with
  | case1 => simp [base64Encode, base64Decode]
  | case2 a =>
    have ha := a.isLt
    simp only [base64Encode, base64Decode]
    rw [decodeSextet_encodeSextet _ (by omega), decodeSextet_encodeSextet _ (by omega)]
    simp
    apply Fin.ext
    simp [byteOfNat]
    omega
  | case3 a b =>
    have ha := a.isLt
    have hb := b.isLt
    simp only [base64Encode, base64Decode]
    rw [decodeSextet_encodeSextet _ (by omega), decodeSextet_encodeSextet _ (by omega),
      decodeSextet_encodeSextet _ (by omega)]
    have h2 : encodeSextet (b.val % 16 * 4) ≠ stdPadding := encodeSextet_ne_padding _ (by omega)
    simp [h2]
    constructor <;> (apply Fin.ext; simp [byteOfNat]; omega)
  | case4 a b c rest ih =>
    have ha := a.isLt
    have hb := b.isLt
    have hc := c.isLt
    simp only [base64Encode, base64Decode]
    rw [decodeSextet_encodeSextet _ (by omega), decodeSextet_encodeSextet _ (by omega),
      decodeSextet_encodeSextet _ (by omega), decodeSextet_encodeSextet _ (by omega), ih]
    have h3 : encodeSextet (c.val % 64) ≠ stdPadding := encodeSextet_ne_padding _ (by omega)
    simp [h3]
    refine ⟨?_, ?_, ?_⟩ <;> (apply Fin.ext; simp [byteOfNat]; omega)

theorem base64Encode_length (bs : List Byte) :
    (base64Encode bs).length = 4 * ((bs.length + 2) / 3) := by
  induction bs using base64Encode.induct with
  | case1 => simp [base64Encode]
  | case2 a => simp [base64Encode]
  | case3 a b => simp [base64Encode]
  | case4 a b c rest ih => simp [base64Encode, ih]; omega

theorem base64Encode_injective {x y : List Byte} (h : base64Encode x = base64Encode y) : x = y := by
  have hx := base64Decode_encode x
  rw [h, base64Decode_encode] at hx
  exact (Option.some.inj hx).symm

theorem be32_length (w : Nat) : (be32 w).length = 4 := rfl

theorem sha256_length (msg : List Byte) : (sha256 msg).length = 32 := by
  simp [sha256, be32_length]

theorem hmacSHA256_length (key msg : List Byte) : (hmacSHA256 key msg).length = 32 := by
  unfold hmacSHA256
  exact sha256_length _

theorem sha256Pad_length (msg : List Byte) : (sha256Pad msg).length % 64 = 0 := by
  simp [sha256Pad, be64, be32]
  omega

theorem hmac_Write_Sum (key msg : List Byte) :
    ((hmacNew key).Write msg).Sum [] = hmacSHA256 key msg := by
  simp [hmacNew, HMAC.Write, HMAC.Sum]

/-! ## Test vectors -/

theorem sha256_abc :
    sha256 (str "abc") =
      [0xba, 0x78, 0x16, 0xbf, 0x8f, 0x01, 0xcf, 0xea, 0x41, 0x41, 0x40, 0xde, 0x5d, 0xae, 0x22,
       0x23, 0xb0, 0x03, 0x61, 0xa3, 0x96, 0x17, 0x7a, 0x9c, 0xb4, 0x10, 0xff, 0x61, 0xf2, 0x00,
       0x15, 0xad] := by decide!

theorem hmacSHA256_rfc4231_case2 :
    hmacSHA256 (str "Jefe") (str "what do ya want for nothing?") =
      [0x5b, 0xdc, 0xc1, 0x46, 0xbf, 0x60, 0x75, 0x4e, 0x6a, 0x04, 0x24, 0x26, 0x08, 0x95, 0x75,
       0xc7, 0x5a, 0x00, 0x3f, 0x08, 0x9d, 0x27, 0x39, 0x83, 0x9d, 0xec, 0x58, 0xb9, 0x64, 0xec,
       0x38, 0x43] := by decide!

theorem base64Encode_hello : base64Encode (str "hello world!!") = str "aGVsbG8gd29ybGQhIQ==" := by
  decide

theorem testStore_eq :
    testStore =
      ⟨[⟨1, str "test", str "dGVzdO9fygjH9aPMbxn8izZ86gNh04uiFAC7Qx/AIN5c04+1", str "abcdefgh"⟩],
        []⟩ := by decide!

theorem hmac_digest_of_test :
    base64Encode (hmacSHA256 (str "abcdefgh") (str "test")) =
      str "nJehzCtSbM5ZAuRc3gpgfepKnTpjgIOgxwjby0p3CYY=" := by decide!

theorem routeUsersCreate_test :
    routeUsersCreate Database.empty id
        ⟨[], [], some (.obj [(str "username", .str (str "test")),
          (str "password", .str (str "test"))]), []⟩ =
      (testStore, ⟨201, some (.obj [(str "username", .str (str "test"))])⟩) := by decide!

/-! ## The credential store -/

theorem digest_ne_password (salt password : GoString) :
    base64Encode ((hmacNew salt).Sum password) ≠ password := by
  intro h
  have hl := congrArg List.length h
  rw [base64Encode_length] at hl
  simp only [HMAC.Sum, hmacNew, List.length_append, hmacSHA256_length] at hl
  omega

theorem Auth_fails (d : Database) (name password : GoString) :
    Auth d name password = .error (.app ErrNoUser) ∨
      Auth d name password = .error (.app ErrIncorrectPassword) := by
  unfold Auth GetUser
  split
  · rename_i err h
    split at h
    · left; simp at h; rw [← h]
    · simp at h
  · rename_i u h
    simp only
    split
    · left; rfl
    · rename_i hp
      split
      · right; rfl
      · rename_i hq
        exfalso
        simp only [ne_eq, Decidable.not_not] at hp hq
        exact digest_ne_password u.Salt password (hp.trans hq)

theorem GetUser_error {d : Database} {name : GoString} {e : GoError}
    (h : GetUser d name = .error e) :
    e = .app ErrNoUser ∧ d.users.find? (fun r => r.name = name) = none := by
  unfold GetUser at h
  split at h
  · rename_i hf
    simp at h
    exact ⟨h.symm, hf⟩
  · simp at h

theorem CreateUser_new {d : Database} {name : GoString} (rnd : Nat → Nat) (password : GoString)
    (h : GetUser d name = .error (.app ErrNoUser)) :
    CreateUser d rnd name password =
      ({ d with
          users := d.users ++
            [⟨nextRowid d.users, name,
              base64Encode ((hmacNew (RandStringRunes 8 rnd)).Sum password),
              RandStringRunes 8 rnd⟩] },
        none) := by
  have hf := (GetUser_error h).2
  have hany : (d.users.any fun r => decide (r.name = name)) = false := by
    rw [List.any_eq_false]
    intro x hx
    have := List.find?_eq_none.mp hf x hx
    simpa using this
  unfold CreateUser
  rw [h]
  simp [insertUser, hany]

theorem GetUser_CreateUser_new {d : Database} {name : GoString} (rnd : Nat → Nat)
    (password : GoString) (h : GetUser d name = .error (.app ErrNoUser)) :
    GetUser (CreateUser d rnd name password).1 name =
      .ok ⟨nextRowid d.users, name,
        base64Encode ((hmacNew (RandStringRunes 8 rnd)).Sum password),
        RandStringRunes 8 rnd⟩ := by
  rw [CreateUser_new rnd password h]
  have hf := (GetUser_error h).2
  unfold GetUser
  simp [List.find?_append, hf]

theorem Auth_CreateUser_new {d : Database} {name : GoString} (rnd : Nat → Nat)
    (password : GoString) (h : GetUser d name = .error (.app ErrNoUser)) :
    Auth (CreateUser d rnd name password).1 name password =
      .error (.app ErrIncorrectPassword) := by
  unfold Auth
  rw [GetUser_CreateUser_new rnd password h]
  simp [digest_ne_password]

theorem Auth_testStore :
    Auth testStore (str "test") (str "test") = .error (.app ErrIncorrectPassword) :=
  Auth_CreateUser_new id (str "test") rfl

/-! ## The handlers behind `auth` -/

theorem auth_fails (d : Database) (r : Request) :
    auth d r = (some (writeJSONError (.app ErrNoUser)), 0) ∨
      auth d r = (some (writeJSONError (.app ErrIncorrectPassword)), 0) := by
  unfold auth
  rcases Auth_fails d r.authUser r.authKey with h | h <;> simp [h]

theorem auth_of_Auth_error {d : Database} {r : Request} {e : GoError}
    (h : Auth d r.authUser r.authKey = .error e) : auth d r = (some (writeJSONError e), 0) := by
  unfold auth
  simp [h]

theorem routeSyncProgress_of_Auth_error {d : Database} {r : Request} {e : GoError} (now : Int)
    (h : Auth d r.authUser r.authKey = .error e) :
    routeSyncProgress d now r = (d, writeJSONError e) := by
  unfold routeSyncProgress
  simp [auth_of_Auth_error h]

theorem routeGetProgress_of_Auth_error {d : Database} {r : Request} {e : GoError}
    (h : Auth d r.authUser r.authKey = .error e) :
    routeGetProgress d r = writeJSONError e := by
  unfold routeGetProgress
  simp [auth_of_Auth_error h]

theorem routeSyncProgress_unauthorized (d : Database) (now : Int) (r : Request) :
    (routeSyncProgress d now r).1 = d ∧
      (routeSyncProgress d now r).2.status = StatusUnauthorized := by
  rcases Auth_fails d r.authUser r.authKey with h | h <;>
    simp [routeSyncProgress_of_Auth_error now h, writeJSONError, ErrNoUser, ErrIncorrectPassword]

theorem routeGetProgress_unauthorized (d : Database) (r : Request) :
    (routeGetProgress d r).status = StatusUnauthorized := by
  rcases Auth_fails d r.authUser r.authKey with h | h <;>
    simp [routeGetProgress_of_Auth_error h, writeJSONError, ErrNoUser, ErrIncorrectPassword]

theorem UpdateProgress_fails (d : Database) (p : Progress) :
    ∃ msg, UpdateProgress d p = (d, some (.driver msg)) := ⟨_, rfl⟩

/-! ## The decoder of the push body -/

theorem foldl_bind_none {α β : Type} (f : α → β → Option α) (l : List β) :
    l.foldl (fun acc kv => acc.bind (fun p => f p kv)) none = none := by
  induction l with
  | nil => rfl
  | cons x xs ih => simpa using ih

theorem setProgressField_fractional (p : Progress) (key : GoString) (n : NumLit)
    (hk : foldName key = foldName (str "percentage")) (hn : n.frac ≠ []) :
    setProgressField p key (.num n) = none := by
  have h1 : foldName (str "percentage") ≠ foldName (str "user") := by decide
  have h2 : foldName (str "percentage") ≠ foldName (str "document") := by decide
  simp [setProgressField, hk, h1, h2, decodeInt, NumLit.parseInt, hn]

theorem decodeProgress_fractional (members : List (GoString × JValue)) (key : GoString)
    (n : NumLit) (hm : (key, JValue.num n) ∈ members)
    (hk : foldName key = foldName (str "percentage")) (hn : n.frac ≠ []) :
    decodeProgress (.obj members) = none := by
  simp only [decodeProgress]
  generalize some zeroProgress = init
  induction members generalizing init with
  | nil => simp at hm
  | cons x xs ih =>
    rw [List.foldl_cons]
    rcases List.mem_cons.mp hm with hx | hx
    · subst hx
      have : (init.bind fun p => setProgressField p key (.num n)) = none := by
        cases init with
        | none => rfl
        | some p => simpa using setProgressField_fractional p key n hk hn
      simp only [this]
      exact foldl_bind_none _ xs
    · exact ih hx _

/-! ## Malformed bodies, the stamped record and sequences of writes -/

theorem fieldNames_distinct :
    foldName (str "document") ≠ foldName (str "user") ∧
      foldName (str "percentage") ≠ foldName (str "user") ∧
      foldName (str "percentage") ≠ foldName (str "document") ∧
      foldName (str "progress") ≠ foldName (str "user") ∧
      foldName (str "progress") ≠ foldName (str "document") ∧
      foldName (str "progress") ≠ foldName (str "percentage") ∧
      foldName (str "device") ≠ foldName (str "user") ∧
      foldName (str "device") ≠ foldName (str "document") ∧
      foldName (str "device") ≠ foldName (str "percentage") ∧
      foldName (str "device") ≠ foldName (str "progress") ∧
      foldName (str "device_id") ≠ foldName (str "user") ∧
      foldName (str "device_id") ≠ foldName (str "document") ∧
      foldName (str "device_id") ≠ foldName (str "percentage") ∧
      foldName (str "device_id") ≠ foldName (str "progress") ∧
      foldName (str "device_id") ≠ foldName (str "device") ∧
      foldName (str "timestamp") ≠ foldName (str "user") ∧
      foldName (str "timestamp") ≠ foldName (str "document") ∧
      foldName (str "timestamp") ≠ foldName (str "percentage") ∧
      foldName (str "timestamp") ≠ foldName (str "progress") ∧
      foldName (str "timestamp") ≠ foldName (str "device") ∧
      foldName (str "timestamp") ≠ foldName (str "device_id") := by decide

theorem decodeInt_wrongType (v : JValue) (old : Int)
    (h : ¬ (v = .null ∨ ∃ n, v = .num n ∧ n.frac = [] ∧ n.exp = none)) :
    decodeInt v old = none := by
  cases v with
  | null => simp at h
  | num n =>
    have hn : ¬ (n.frac = [] ∧ n.exp = none) := fun hc => h (Or.inr ⟨n, rfl, hc.1, hc.2⟩)
    simp [decodeInt, NumLit.parseInt, hn]
  | bool b => rfl
  | str s => rfl
  | composite => rfl

theorem decodeString_wrongType (v : JValue) (old : GoString)
    (h : ¬ (v = .null ∨ ∃ s, v = .str s)) : decodeString v old = none := by
  cases v with
  | null => simp at h
  | str s => simp at h
  | num n => rfl
  | bool b => rfl
  | composite => rfl

theorem setProgressField_wrongType (p : Progress) (key : GoString) (v : JValue)
    (h : WrongType key v) : setProgressField p key v = none := by
  obtain ⟨h10, h20, h21, h30, h31, h32, h40, h41, h42, h43, h50, h51, h52, h53, h54, h60, h61,
    h62, h63, h64, h65⟩ := fieldNames_distinct
  rcases h with ⟨hk, hv⟩ | ⟨hk, hv⟩
  · simp only [intFieldNames, List.map_cons, List.map_nil, List.mem_cons, List.mem_singleton,
      List.not_mem_nil, or_false] at hk
    rcases hk with hk | hk | hk <;>
      simp [setProgressField, hk, decodeInt_wrongType v _ hv, h20, h21, h60, h61, h62, h63, h64,
        h65]
  · simp only [stringFieldNames, List.map_cons, List.map_nil, List.mem_cons, List.mem_singleton,
      List.not_mem_nil, or_false] at hk
    rcases hk with hk | hk | hk | hk <;>
      simp [setProgressField, hk, decodeString_wrongType v _ hv, h10, h30, h31, h32, h40, h41,
        h42, h43, h50, h51, h52, h53, h54]

theorem decodeProgress_wrongType (members : List (GoString × JValue)) (key : GoString)
    (v : JValue) (hm : (key, v) ∈ members) (hw : WrongType key v) :
    decodeProgress (.obj members) = none := by
  simp only [decodeProgress]
  generalize some zeroProgress = init
  induction members generalizing init with
  | nil => simp at hm
  | cons x xs ih =>
    rw [List.foldl_cons]
    rcases List.mem_cons.mp hm with hx | hx
    · subst hx
      have : (init.bind fun p => setProgressField p key v) = none := by
        cases init with
        | none => rfl
        | some p => simpa using setProgressField_wrongType p key v hw
      simp only [this]
      exact foldl_bind_none _ xs
    · exact ih hx _

theorem decodeProgress_malformed {b : Option JSON} (h : Malformed b) :
    b.bind decodeProgress = none := by
  cases h with
  | notJSON => rfl
  | notObject v hv =>
    cases v with
    | null => exact absurd rfl hv
    | bool b => rfl
    | num n => rfl
    | str s => rfl
    | composite => rfl
  | wrongField members key v hm hw => exact decodeProgress_wrongType members key v hm hw

theorem syncProgressRecord_malformed (now uid : Int) {r : Request} (h : Malformed r.body) :
    syncProgressRecord now uid r =
      .error ⟨StatusBadRequest,
        some (encodeError ⟨StatusBadRequest, 2003, str "Bad request"⟩)⟩ := by
  simp only [syncProgressRecord, decodeBody, decodeProgress_malformed h]
  rfl

theorem syncProgressRecord_decoded (now uid : Int) {r : Request} {b : JSON} {p0 : Progress}
    (hb : r.body = some b) (hd : decodeProgress b = some p0) :
    syncProgressRecord now uid r =
      .ok ⟨uid, p0.Document, p0.Percentage, p0.Progress, p0.Device, p0.DeviceID, now⟩ := by
  simp only [syncProgressRecord, decodeBody, hb, Option.some_bind, hd]

theorem updateAll_eq (d : Database) (ps : List Progress) : updateAll d ps = (d, []) := by
  induction ps with
  | nil => rfl
  | cons p ps ih =>
    obtain ⟨msg, hu⟩ := UpdateProgress_fails d p
    simp [updateAll, hu, ih]

/-! ## The claims -/

/-- C1: in a store where `name` is not registered, `CreateUser(name, password)` succeeds, and the
`Auth(name, password)` that follows does not yield the id of the new user: it fails with
`ErrIncorrectPassword`, and `GET /users/auth` with these credentials answers 401. -/
theorem createUser_then_auth_fails (d : Database) (rnd : Nat → Nat) (name password : GoString)
    (doc : GoString) (body : Option JSON)
    (h : GetUser d name = .error (.app ErrNoUser)) :
    (CreateUser d rnd name password).2 = none ∧
      Auth (CreateUser d rnd name password).1 name password =
        .error (.app ErrIncorrectPassword) ∧
      routeUsersAuth (CreateUser d rnd name password).1 ⟨name, password, body, doc⟩ =
        ⟨StatusUnauthorized, some (encodeError ErrIncorrectPassword)⟩ := by
  have hauth := Auth_CreateUser_new rnd password h
  refine ⟨by rw [CreateUser_new rnd password h], hauth, ?_⟩
  simp [routeUsersAuth, auth, hauth, writeJSONError, ErrIncorrectPassword]

/-- C1, at the input of `testHTTPUser`: user `test` with password `test` on a new store. -/
theorem createUser_then_auth_fails_witness :
    (CreateUser Database.empty id (str "test") (str "test")).2 = none ∧
      Auth (CreateUser Database.empty id (str "test") (str "test")).1 (str "test") (str "test") =
        .error (.app ErrIncorrectPassword) ∧
      routeUsersAuth (CreateUser Database.empty id (str "test") (str "test")).1
          ⟨str "test", str "test", none, []⟩ =
        ⟨StatusUnauthorized, some (encodeError ErrIncorrectPassword)⟩ :=
  createUser_then_auth_fails Database.empty id (str "test") (str "test") [] none rfl

/-- C2: whatever the store, the credentials and the payload, a push leaves the store as it was
and the pull that follows it answers 401, never 200 with the fields written; so does the pull of
`testProgress`, with the credentials of the user created; and the JSON text of a stored record,
as the pull would send it, has the key `user` next to the fields of the payload. -/
theorem pull_after_push_is_unauthorized (d : Database) (now : Int) (push pull : Request) :
    (routeSyncProgress d now push).1 = d ∧
      (routeGetProgress (routeSyncProgress d now push).1 pull).status = StatusUnauthorized ∧
      (routeGetProgress (routeSyncProgress d now push).1 pull).status ≠ StatusOK ∧
      routeGetProgress testStore ⟨str "test", str "test", none, str "test"⟩ =
        ⟨StatusUnauthorized, some (encodeError ErrIncorrectPassword)⟩ ∧
      encodeProgress testRecord =
        .obj [(str "user", .num (NumLit.ofInt 1)), (str "document", .str (str "test")),
          (str "percentage", .num (NumLit.ofInt 1)), (str "progress", .str (str "test")),
          (str "device", .str (str "123")), (str "device_id", .str (str "123")),
          (str "timestamp", .num (NumLit.ofInt testNow))] := by
  refine ⟨(routeSyncProgress_unauthorized d now push).1, routeGetProgress_unauthorized _ _, ?_,
    ?_, by decide⟩
  · rw [routeGetProgress_unauthorized]
    decide
  · exact @routeGetProgress_of_Auth_error testStore ⟨str "test", str "test", none, str "test"⟩ _
      Auth_testStore

/-- C3: a push body in which the member `percentage` is a number with a fraction part is not
decoded: `decodeBody` answers it with the bad-request error (status 400, code 2003). -/
theorem fractional_percentage_is_rejected (r : Request) (members : List (GoString × JValue))
    (key : GoString) (n : NumLit) (hb : r.body = some (.obj members))
    (hm : (key, JValue.num n) ∈ members)
    (hk : foldName key = foldName (str "percentage")) (hn : n.frac ≠ []) :
    decodeBody decodeProgress r =
      .error ⟨StatusBadRequest, some (encodeError ⟨StatusBadRequest, 2003, str "Bad request"⟩)⟩ := by
  unfold decodeBody
  rw [hb, Option.some_bind, decodeProgress_fractional members key n hm hk hn]
  rfl

/-- C3, at the body of `testProgress`, whose percentage is 0.1. -/
theorem fractional_percentage_is_rejected_witness :
    decodeBody decodeProgress ⟨str "test", str "test", some testProgressBody, []⟩ =
      .error ⟨StatusBadRequest, some (encodeError ⟨StatusBadRequest, 2003, str "Bad request"⟩)⟩ :=
  fractional_percentage_is_rejected ⟨str "test", str "test", some testProgressBody, []⟩ _
    (str "percentage") ⟨false, 0, [1], none⟩ rfl (by simp [testProgressBody]) rfl (by decide)

/-- C4: once `auth` has returned the id `uid`, for every request whose body decodes (to `p0`),
the record `routeSyncProgress` hands to `UpdateProgress` has `User` equal to `uid` and `Timestamp`
equal to the server clock `now`, whatever the body carries under `user` and `timestamp`, and the
other fields as decoded; when `UpdateProgress` returns no error for it, the response is 201 with
exactly the document of the payload and that timestamp; and the handler is these two steps around
the call of `UpdateProgress`, on the id `auth` returns. -/
theorem push_is_stamped_and_acknowledged (d : Database) (now uid : Int) (r : Request) (b : JSON)
    (p0 : Progress) (hb : r.body = some b) (hd : decodeProgress b = some p0) :
    syncProgressRecord now uid r =
        .ok ⟨uid, p0.Document, p0.Percentage, p0.Progress, p0.Device, p0.DeviceID, now⟩ ∧
      syncProgressResponse
          ⟨uid, p0.Document, p0.Percentage, p0.Progress, p0.Device, p0.DeviceID, now⟩ none =
        ⟨201, some (.obj [(str "document", .str p0.Document),
          (str "timestamp", .num (NumLit.ofInt now))])⟩ ∧
      routeSyncProgress d now r =
        if (auth d r).2 = 0 then (d, (auth d r).1.getD unwritten)
        else
          ((UpdateProgress d
              ⟨(auth d r).2, p0.Document, p0.Percentage, p0.Progress, p0.Device, p0.DeviceID,
                now⟩).1,
            syncProgressResponse
              ⟨(auth d r).2, p0.Document, p0.Percentage, p0.Progress, p0.Device, p0.DeviceID,
                now⟩
              (UpdateProgress d
                ⟨(auth d r).2, p0.Document, p0.Percentage, p0.Progress, p0.Device, p0.DeviceID,
                  now⟩).2) := by
  refine ⟨syncProgressRecord_decoded now uid hb hd, rfl, ?_⟩
  unfold routeSyncProgress
  simp only [syncProgressRecord_decoded now _ hb hd]

/-- C4, at a push for the document `test` whose body carries the user 999 and the timestamp 111,
for the id 1 and the clock of the tests: the record is the one of user 1 stamped with the clock,
and the acknowledgment names the document and the clock. -/
theorem push_is_stamped_and_acknowledged_witness :
    syncProgressRecord testNow 1 ⟨str "test", str "test", some testIntegerBody, []⟩ =
        .ok ⟨1, str "test", 1, str "test", str "123", str "123", 1609459200⟩ ∧
      syncProgressResponse ⟨1, str "test", 1, str "test", str "123", str "123", 1609459200⟩
          none =
        ⟨201, some (.obj [(str "document", .str (str "test")),
          (str "timestamp", .num (NumLit.ofInt 1609459200))])⟩ :=
  have h := push_is_stamped_and_acknowledged testStore testNow 1
    ⟨str "test", str "test", some testIntegerBody, []⟩ testIntegerBody
    ⟨999, str "test", 1, str "test", str "123", str "123", 111⟩ rfl (by decide)
  ⟨h.1, h.2.1⟩

/-- C5: for a password that is not empty, the digest `CreateUser` persists under the generated
salt is not `base64(HMAC-SHA256(key = salt, message = password))`. -/
theorem createUser_digest_is_not_hmac_of_password (d : Database) (rnd : Nat → Nat)
    (name password : GoString) (h : GetUser d name = .error (.app ErrNoUser))
    (hp : password ≠ []) :
    ∃ u, GetUser (CreateUser d rnd name password).1 name = .ok u ∧
      u.Salt = RandStringRunes 8 rnd ∧
      u.Password ≠ base64Encode (hmacSHA256 u.Salt password) := by
  refine ⟨_, GetUser_CreateUser_new rnd password h, rfl, ?_⟩
  intro heq
  have hl := congrArg List.length (base64Encode_injective heq)
  simp only [HMAC.Sum, hmacNew, List.length_append, hmacSHA256_length] at hl
  have : password.length = 0 := by omega
  exact hp (List.length_eq_zero.mp this)

/-- C5, at the input of `testHTTPUser`: the row stored for the user `test` with password `test`
under the salt `abcdefgh`, next to the digest the claim describes. -/
theorem createUser_digest_is_not_hmac_of_password_witness :
    (∃ u, GetUser (CreateUser Database.empty id (str "test") (str "test")).1 (str "test") =
        .ok u ∧
      u.Salt = RandStringRunes 8 id ∧
      u.Password ≠ base64Encode (hmacSHA256 u.Salt (str "test"))) ∧
      GetUser testStore (str "test") =
        .ok ⟨1, str "test", str "dGVzdO9fygjH9aPMbxn8izZ86gNh04uiFAC7Qx/AIN5c04+1",
          str "abcdefgh"⟩ ∧
      base64Encode (hmacSHA256 (str "abcdefgh") (str "test")) =
        str "nJehzCtSbM5ZAuRc3gpgfepKnTpjgIOgxwjby0p3CYY=" :=
  ⟨createUser_digest_is_not_hmac_of_password Database.empty id (str "test") (str "test") rfl
      (by decide),
    by rw [testStore_eq]; rfl, hmac_digest_of_test⟩

/-- C6: after `CreateUser(name, p)` in a store where `name` was not registered, `Auth(name, q)`
with a password `q` other than `p` fails with `ErrNoUser`, which is the error `Auth` returns for
every name that is not registered: status 401, code 401, message `No User`. -/
theorem auth_wrong_password_is_no_user (d : Database) (rnd : Nat → Nat) (name p q : GoString)
    (h : GetUser d name = .error (.app ErrNoUser)) (hq : q ≠ p) :
    Auth (CreateUser d rnd name p).1 name q = .error (.app ErrNoUser) ∧
      (∀ (d2 : Database) (name2 key : GoString), GetUser d2 name2 = .error (.app ErrNoUser) →
        Auth d2 name2 key = .error (.app ErrNoUser)) ∧
      ErrNoUser = ⟨401, 401, str "No User"⟩ := by
  refine ⟨?_, ?_, rfl⟩
  · unfold Auth
    rw [GetUser_CreateUser_new rnd p h]
    have hne : base64Encode ((hmacNew (RandStringRunes 8 rnd)).Sum q) ≠
        base64Encode ((hmacNew (RandStringRunes 8 rnd)).Sum p) := by
      intro heq
      have := base64Encode_injective heq
      simp only [HMAC.Sum, hmacNew, List.append_left_inj] at this
      exact hq this
    simp [hne]
  · intro d2 name2 key h2
    unfold Auth
    rw [h2]

/-- C6, at the user `test` with password `test` and the wrong password `tesx`. -/
theorem auth_wrong_password_is_no_user_witness :
    Auth (CreateUser Database.empty id (str "test") (str "test")).1 (str "test") (str "tesx") =
        .error (.app ErrNoUser) ∧
      (∀ (d2 : Database) (name2 key : GoString), GetUser d2 name2 = .error (.app ErrNoUser) →
        Auth d2 name2 key = .error (.app ErrNoUser)) ∧
      ErrNoUser = ⟨401, 401, str "No User"⟩ :=
  auth_wrong_password_is_no_user Database.empty id (str "test") (str "test") (str "tesx") rfl
    (by decide)

/-- C7, as stated, fails: a push with a malformed body (one `decodeBody` rejects with 400 and
code 2003) and the credentials of a user that does not exist is answered with 401. -/
theorem malformed_push_of_unknown_user_is_401 :
    routeSyncProgress Database.empty testNow ⟨str "nobody", str "key", none, []⟩ =
        (Database.empty, ⟨401, some (encodeError ErrNoUser)⟩) ∧
      decodeBody decodeProgress ⟨str "nobody", str "key", none, []⟩ =
        .error ⟨400, some (encodeError ⟨400, 2003, str "Bad request"⟩)⟩ :=
  ⟨rfl, rfl⟩

/-- C7, amended: a push with a malformed body (not well-formed JSON, or a field of the wrong
type) is answered with the bad-request error (status 400, code 2003) unless authentication fails.
`routeSyncProgress` authenticates first: when `auth` returns 0 the response is what `auth` wrote,
which for a failed `Auth` is the envelope of its error with status 401, whatever the body is;
otherwise, for whatever id `auth` returned, the body is rejected with 400 and code 2003 and the
store is left as it was. Code 2003 is not the code of `ErrNoUser` or `ErrIncorrectPassword`. -/
theorem malformed_push_is_rejected_after_auth (d : Database) (now : Int) (r : Request)
    (hm : Malformed r.body) :
    routeSyncProgress d now r =
        (d, if (auth d r).2 = 0 then (auth d r).1.getD unwritten
          else ⟨StatusBadRequest,
            some (encodeError ⟨StatusBadRequest, 2003, str "Bad request"⟩)⟩) ∧
      (∀ e, Auth d r.authUser r.authKey = .error e →
        routeSyncProgress d now r = (d, writeJSONError e) ∧
          (writeJSONError e).status = StatusUnauthorized) ∧
      (∀ uid : Int, syncProgressRecord now uid r =
        .error ⟨StatusBadRequest,
          some (encodeError ⟨StatusBadRequest, 2003, str "Bad request"⟩)⟩) ∧
      (2003 : Int) ≠ ErrNoUser.Code ∧ (2003 : Int) ≠ ErrIncorrectPassword.Code := by
  refine ⟨?_, ?_, fun uid => syncProgressRecord_malformed now uid hm, by decide, by decide⟩
  · unfold routeSyncProgress
    simp only [syncProgressRecord_malformed now _ hm]
    split <;> rfl
  · intro e h
    refine ⟨routeSyncProgress_of_Auth_error now h, ?_⟩
    rcases Auth_fails d r.authUser r.authKey with h2 | h2 <;>
      · rw [h2] at h
        cases h
        rfl

/-- C7 amended, at a push whose member `percentage` is a string: with the credentials of a user
that does not exist it is answered with the envelope of `ErrNoUser`, status 401; the step after
`auth`, here for the id 1, rejects it with status 400 and code 2003. -/
theorem malformed_push_is_rejected_after_auth_witness :
    Malformed (some testWrongTypeBody) ∧
      routeSyncProgress Database.empty testNow
          ⟨str "nobody", str "key", some testWrongTypeBody, []⟩ =
        (Database.empty, ⟨401, some (encodeError ErrNoUser)⟩) ∧
      syncProgressRecord testNow 1 ⟨str "nobody", str "key", some testWrongTypeBody, []⟩ =
        .error ⟨400, some (encodeError ⟨400, 2003, str "Bad request"⟩)⟩ :=
  have hm : Malformed (some testWrongTypeBody) :=
    .wrongField _ (str "percentage") (.str (str "high")) (by simp [testWrongTypeBody])
      (Or.inl ⟨by decide, by simp⟩)
  have h := malformed_push_is_rejected_after_auth Database.empty testNow
    ⟨str "nobody", str "key", some testWrongTypeBody, []⟩ hm
  ⟨hm, (h.2.1 (.app ErrNoUser) rfl).1, h.2.2.1 1⟩

/-- C8: after every sequence of `UpdateProgress` calls on a store, `GetProgress` under a key
returns without error the record of the most recent call under that key that returned no error,
complete, or what the store held under the key before when there is none, which on a new store
is the all-zero record; a call under one key leaves what `GetProgress` returns under every other
key as it was; and a row stored under a key that no other row has is returned with every field as
stored. -/
theorem getProgress_after_updates (d : Database) (ps : List Progress) (user : Int)
    (doc : GoString) :
    GetProgress (updateAll d ps).1 user doc =
        (match lastWritten (updateAll d ps).2 user doc with
          | some p => .ok p
          | none => GetProgress d user doc) ∧
      GetProgress (updateAll Database.empty ps).1 user doc =
        .ok ((lastWritten (updateAll Database.empty ps).2 user doc).getD zeroProgress) ∧
      (∀ p : Progress, (p.User, p.Document) ≠ (user, doc) →
        GetProgress (UpdateProgress d p).1 user doc = GetProgress d user doc) ∧
      (∀ p ∈ d.progress,
        (∀ q ∈ d.progress, q.User = p.User → q.Document = p.Document → q = p) →
        GetProgress d p.User p.Document = .ok p) := by
  refine ⟨?_, ?_, ?_, ?_⟩
  · rw [updateAll_eq]
    rfl
  · rw [updateAll_eq]
    rfl
  · intro p _
    obtain ⟨msg, hu⟩ := UpdateProgress_fails d p
    rw [hu]
  · intro p hp huniq
    unfold GetProgress
    cases hf : d.progress.find? (fun q => q.User = p.User ∧ q.Document = p.Document) with
    | none =>
      have := List.find?_eq_none.mp hf p hp
      simp at this
    | some q =>
      have hq := List.find?_some hf
      have hmem := List.mem_of_find?_eq_some hf
      simp only [decide_eq_true_eq] at hq
      simp only [huniq q hmem hq.1 hq.2]

/-- C9: in a store where a user `name` exists, `CreateUser(name, password)` returns
`ErrUserExists` (status 402, code 2002) for every password and leaves the store as it was, so no
row is inserted and the digest and salt of the user are unchanged. -/
theorem createUser_existing_name (d : Database) (rnd : Nat → Nat) (name password : GoString)
    (u : User) (h : GetUser d name = .ok u) :
    CreateUser d rnd name password = (d, some (.app ErrUserExists)) ∧
      GetUser (CreateUser d rnd name password).1 name = .ok u ∧
      ErrUserExists.HTTPCode = 402 ∧ ErrUserExists.Code = 2002 := by
  have hc : CreateUser d rnd name password = (d, some (.app ErrUserExists)) := by
    unfold CreateUser
    rw [h]
  exact ⟨hc, by rw [hc]; exact h, rfl, rfl⟩

/-- C9, at a second `CreateUser` for the user `test`, with another password. -/
theorem createUser_existing_name_witness :
    CreateUser testStore id (str "test") (str "other") =
        (testStore, some (.app ErrUserExists)) ∧
      GetUser (CreateUser testStore id (str "test") (str "other")).1 (str "test") =
        .ok ⟨1, str "test", base64Encode ((hmacNew (RandStringRunes 8 id)).Sum (str "test")),
          RandStringRunes 8 id⟩ ∧
      ErrUserExists.HTTPCode = 402 ∧ ErrUserExists.Code = 2002 :=
  createUser_existing_name testStore id (str "test") (str "other") _
    (GetUser_CreateUser_new id (str "test") rfl)

/-- C10: the string `CreateUser` stores in `users.password` is the base64 encoding of the
password bytes followed by the 32 bytes of `HMAC-SHA256(key = salt, message = "")`, a tag in
which the password does not occur; decoding the stored string and dropping its last 32 bytes
gives back the password. -/
theorem createUser_stores_recoverable_password (d : Database) (rnd : Nat → Nat)
    (name password : GoString) (h : GetUser d name = .error (.app ErrNoUser)) :
    ∃ u, GetUser (CreateUser d rnd name password).1 name = .ok u ∧
      u.Salt = RandStringRunes 8 rnd ∧
      u.Password = base64Encode (password ++ hmacSHA256 u.Salt []) ∧
      (hmacSHA256 u.Salt []).length = 32 ∧
      (base64Decode u.Password).map (fun b => b.take (b.length - 32)) = some password := by
  refine ⟨_, GetUser_CreateUser_new rnd password h, rfl, rfl, hmacSHA256_length _ _, ?_⟩
  simp only [HMAC.Sum, hmacNew, base64Decode_encode, Option.map_some', List.length_append,
    hmacSHA256_length, Nat.add_sub_cancel, List.take_left']

/-- C10, at the user `test` with password `test`. -/
theorem createUser_stores_recoverable_password_witness :
    ∃ u, GetUser (CreateUser Database.empty id (str "test") (str "test")).1 (str "test") = .ok u ∧
      u.Salt = RandStringRunes 8 id ∧
      u.Password = base64Encode (str "test" ++ hmacSHA256 u.Salt []) ∧
      (hmacSHA256 u.Salt []).length = 32 ∧
      (base64Decode u.Password).map (fun b => b.take (b.length - 32)) = some (str "test") :=
  createUser_stores_recoverable_password Database.empty id (str "test") (str "test") rfl

end KoreaderSync
